import Mathlib

/-
Verification of the deferred-state box ("Maybe") and the bounded-concurrency
runner ("AsyncQueue") of the @nextcapital/maybe package.

The embedding below is a shallow model of the current TypeScript implementation
of the Maybe class (the variant with the separate error slot and the optional
third constructor parameter; src/unnamed/part_008, second file, the one that
imports MaybeTypes, matching the MaybeTypes.ts present in src/js/maybe) and of
AsyncQueue (src/js/async-queue/AsyncQueue.js, which agrees with the TS variants
src/js/async-queue/AsyncQueue.ts and src/unnamed/part_013 on every line that
matters here). Where the legacy JavaScript Maybe (src/js/maybe/Maybe.js,
package version 1.2.0) differs, the divergence is modelled separately and
marked Legacy.

Modelling conventions:
- A JavaScript value slot that can hold undefined is an Option; none is
  undefined.
- Promises are modelled by the inductive JsPromise: an opaque input promise,
  the derived promise obtained from one application of .then, and the
  immediately settled promises produced by Promise.resolve / Promise.reject.
  One .then application is one JsPromise.derived wrapper.
- Settlement cascades (which continuation runs with which value, in the
  canonical outside-in settlement order of a nested chain) are simulated by
  structural recursion; the simulation calls the embedded handler functions at
  exactly the points where the event loop would run them.
-/

namespace MaybeSpec

/-- A promise reference. JsPromise.input is an opaque promise handed in from
outside (identified by a number), JsPromise.derived p is the new promise
returned by one application of p.then with the continuations of a box, and
resolvedTo / rejectedTo are the already settled promises built by
Promise.resolve and Promise.reject in the promise method. -/
inductive JsPromise (α ε : Type) where
  | input (id : Nat)
  | derived (p : JsPromise α ε)
  | resolvedTo (v : Option α)
  | rejectedTo (e : Option ε)
  deriving Repr, DecidableEq

/-- State of a Maybe instance: the fields _isReady, _isError, _value, _error
and _wrappedPromise of the class in src/unnamed/part_008 (second file). The
_wrappedPromise field is null (none) once settled. -/
structure MaybeState (α ε : Type) where
  isReady : Bool
  isError : Bool
  value : Option α
  error : Option ε
  wrappedPromise : Option (JsPromise α ε)
  deriving Repr, DecidableEq

/-- The three kinds of constructor argument: a raw (non-thenable, non-Maybe)
value, a thenable, or another Maybe instance (given by its current state).
Mirrors the isMaybe / isPromise discrimination at the top of the constructor,
which uses Maybe.isMaybe and PromiseUtils.isThenable. -/
inductive Thing (α ε : Type) where
  | val (v : Option α)
  | prom (p : JsPromise α ε)
  | box (m : MaybeState α ε)
  deriving Repr, DecidableEq

variable {α ε : Type}

/-- isReady(): returns _isReady. -/
def MaybeState.isReadyM (m : MaybeState α ε) : Bool := m.isReady

/-- isPending(): the negation of isReady. -/
def MaybeState.isPendingM (m : MaybeState α ε) : Bool := !m.isReady

/-- isResolved(): _isReady and not _isError. -/
def MaybeState.isResolvedM (m : MaybeState α ε) : Bool := m.isReady && !m.isError

/-- isRejected(): _isReady and _isError. -/
def MaybeState.isRejectedM (m : MaybeState α ε) : Bool := m.isReady && m.isError

/-- The become operation, first half: _become(otherMaybe, fromPromise) copies
otherMaybe._isReady, _isError, _value, _error into this and clears
_wrappedPromise; when otherMaybe is still pending it then sets
this._wrappedPromise to otherMaybe.when(handlers).promise(), the promise of
the box built over otherMaybe._wrappedPromise.then(continuations): two .then
applications on top of otherMaybe._wrappedPromise, hence two derived wrappers
(one from the when call, one from the constructor of the box the when call
builds). All five fields of the adopting box are overwritten, so the adopting
box state before the call is irrelevant to the resulting state. The
registered continuations route into _handleResolve and _handleReject of the
adopting box; their later effect is simulated by settleChain below. -/
def becomeM (other : MaybeState α ε) : MaybeState α ε :=
  { isReady := other.isReady
    isError := other.isError
    value := other.value
    error := other.error
    wrappedPromise :=
      if other.isReady then none
      else some (JsPromise.derived (JsPromise.derived
        ((other.wrappedPromise).getD (JsPromise.input 0)))) }

/-- The constructor, new Maybe(thing, isError, error):
sets _isReady to the negation of isThenable(thing); _value to thing for a raw
value and undefined otherwise; _error to error when isError is passed and
undefined otherwise; _isError to (_isReady and isError); for a thenable it
sets _wrappedPromise to thing.then(handleResolve, handleReject) - the derived
promise, not thing itself; for a Maybe argument it runs _become, which
overwrites every field with the adopted state. The getD in becomeM stands for
the non-null assertion on _wrappedPromise of a pending box. -/
def mkMaybe : Thing α ε → Bool → Option ε → MaybeState α ε
  | Thing.val v, isError, error =>
      { isReady := true
        isError := isError
        value := v
        error := if isError then error else none
        wrappedPromise := none }
  | Thing.prom p, _, _ =>
      { isReady := false
        isError := false
        value := none
        error := none
        wrappedPromise := some (JsPromise.derived p) }
  | Thing.box m, _, _ => becomeM m

/-- Maybe.from(thing): returns thing unchanged when it is already a Maybe,
otherwise wraps it with the constructor (no isError, no error argument). -/
def fromM : Thing α ε → MaybeState α ε
  | Thing.box m => m
  | t => mkMaybe t false none

/-- Maybe.fromError(error): new Maybe(undefined, true, error). -/
def fromErrorM (e : Option ε) : MaybeState α ε :=
  mkMaybe (Thing.val none) true e

/-- Outcome of a call to value(): a normal return, a thrown stored error, or
a thrown PendingValueError. -/
inductive ValueOutcome (α ε : Type) where
  | ok (v : Option α)
  | threwError (e : Option ε)
  | threwPending
  deriving Repr, DecidableEq

/-- value(): returns _value when resolved, throws _error when rejected, and
throws a PendingValueError otherwise. -/
def valueM (m : MaybeState α ε) : ValueOutcome α ε :=
  if m.isResolvedM then ValueOutcome.ok m.value
  else if m.isRejectedM then ValueOutcome.threwError m.error
  else ValueOutcome.threwPending

/-- Outcome of a call to valueOrError(): a returned value, a returned error,
or a thrown PendingValueError. -/
inductive VoeOutcome (α ε : Type) where
  | val (v : Option α)
  | err (e : Option ε)
  | threwPending
  deriving Repr, DecidableEq

/-- valueOrError(): returns _value when resolved, returns _error when
rejected, throws a PendingValueError otherwise. -/
def valueOrErrorM (m : MaybeState α ε) : VoeOutcome α ε :=
  if m.isResolvedM then VoeOutcome.val m.value
  else if m.isRejectedM then VoeOutcome.err m.error
  else VoeOutcome.threwPending

/-- promise(): Promise.resolve(_value) when resolved, Promise.reject(_error)
when rejected, otherwise the tracked _wrappedPromise (non-null for a pending
box built by the public constructors, hence the Option result). -/
def promiseM (m : MaybeState α ε) : Option (JsPromise α ε) :=
  if m.isResolvedM then some (JsPromise.resolvedTo m.value)
  else if m.isRejectedM then some (JsPromise.rejectedTo m.error)
  else m.wrappedPromise

/-- What a handler invocation does: it either returns a thing (a raw value,
a promise, or a Maybe) or it throws. A thrown JavaScript value is modelled in
the error universe. -/
inductive HRes (α ε : Type) where
  | ret (t : Thing α ε)
  | thrown (e : Option ε)

/-- The try block around Maybe.from(handler(argument)) inside when: a normal
handler return is wrapped through Maybe.from, a thrown value is caught and
turned into Maybe.fromError(error). -/
def tryFrom : HRes α ε → MaybeState α ε
  | HRes.ret t => fromM t
  | HRes.thrown e => fromErrorM e

/-- when(onResolve, onReject): when resolved and onResolve is passed, invoke
it on _value inside try / catch and wrap the outcome (tryFrom); when resolved
without onResolve, return this unchanged; symmetrically for a rejected box
with onReject on _error; when pending, return
Maybe.from(_wrappedPromise.then(onResolve, onReject)), a new pending box over
the derived promise. The getD again stands for the non-null assertion on the
pending _wrappedPromise. -/
def whenM (m : MaybeState α ε) (onResolve : Option (Option α → HRes α ε))
    (onReject : Option (Option ε → HRes α ε)) : MaybeState α ε :=
  if m.isResolvedM then
    match onResolve with
    | some f => tryFrom (f m.value)
    | none => m
  else if m.isRejectedM then
    match onReject with
    | some g => tryFrom (g m.error)
    | none => m
  else
    fromM (Thing.prom (JsPromise.derived
      ((m.wrappedPromise).getD (JsPromise.input 0))))

/-- finally(onFinally): when with both handlers wrapping the original
outcome, literally
this.when(
  (value) => Maybe.from(onFinally()).when(() => value),
  (error) => Maybe.from(onFinally()).when(() => Maybe.fromError(error))).
The inner when calls pass only an onResolve continuation. The invocation of
onFinally can itself either return a thing or throw (HRes); a throw happens
inside the arrow function, that is inside the try block of the outer when,
so the arrow behaves as a handler that throws the same value. -/
def finallyM (m : MaybeState α ε) (onFinally : Unit → HRes α ε) :
    MaybeState α ε :=
  whenM m
    (some fun value =>
      match onFinally () with
      | HRes.thrown e => HRes.thrown e
      | HRes.ret t => HRes.ret (Thing.box
          (whenM (fromM t)
            (some fun _ => HRes.ret (Thing.val value)) none)))
    (some fun error =>
      match onFinally () with
      | HRes.thrown e => HRes.thrown e
      | HRes.ret t => HRes.ret (Thing.box
          (whenM (fromM t)
            (some fun _ => HRes.ret (Thing.box (fromErrorM error))) none)))

/-- Result of Maybe.all: a resolved box over the ordered list of values (the
synchronous path), the first rejected mapped box returned as-is, or a pending
box over Promise.all of the promise() of every mapped box in input order. -/
inductive AllResult (α ε : Type) where
  | resolvedArray (vs : List (Option α))
  | rejectedEntry (m : MaybeState α ε)
  | pendingArray (ps : List (Option (JsPromise α ε)))
  deriving Repr, DecidableEq

/-- Maybe.all(array): maps every entry through Maybe.from; when every mapped
box isResolved, returns Maybe.from of the list of value() results (value() on
a resolved box returns _value, see valueM_resolved below) with no
asynchronous step; otherwise, when find? locates a rejected mapped box,
returns that entry itself; otherwise returns
Maybe.from(Promise.all(maybeArray.map(m => m.promise()))). -/
def allM (array : List (Thing α ε)) : AllResult α ε :=
  let maybeArray := array.map fromM
  if maybeArray.all MaybeState.isResolvedM then
    AllResult.resolvedArray (maybeArray.map MaybeState.value)
  else
    match maybeArray.find? MaybeState.isRejectedM with
    | some rejectedEntry => AllResult.rejectedEntry rejectedEntry
    | none => AllResult.pendingArray (maybeArray.map promiseM)

/-- A nesting chain for the recursive unwrapping behaviour: Chain.raw v is a
future that fulfills with the raw terminal value v, and Chain.link c is a
future that fulfills with a Maybe constructed over a future whose own
fulfillment follows c. The nesting depth is the number of links. -/
inductive Chain (α : Type) where
  | raw (v : α)
  | link (c : Chain α)
  deriving Repr, DecidableEq

/-- The terminal raw value of a chain. -/
def Chain.terminal : Chain α → α
  | Chain.raw v => v
  | Chain.link c => c.terminal

/-- The argument of a _handleResolve call: a raw value or a Maybe instance
(the isMaybe check at the top of _handleResolve). -/
inductive Incoming (α ε : Type) where
  | rawv (v : Option α)
  | boxv (m : MaybeState α ε)

/-- _handleResolve(value): when value is a Maybe, defer to _become (whose
copied fields are becomeM); otherwise set _isReady, store the value and clear
_wrappedPromise (the raw branch leaves _isError and _error untouched). -/
def handleResolveM (m : MaybeState α ε) : Incoming α ε → MaybeState α ε
  | Incoming.rawv v => { m with isReady := true, value := v, wrappedPromise := none }
  | Incoming.boxv other => becomeM other

/-- Counts a pending to ready transition between two observed states. -/
def flips (before after : MaybeState α ε) : Nat :=
  if before.isReady = false ∧ after.isReady = true then 1 else 0

/-- Simulation of the settlement cascade of a box whose wrapped future
fulfills along chain c, in the canonical outside-in settlement order.
Returns the final state of the box, the total number of pending to ready
transitions the box underwent, and the raw value ultimately delivered by the
box's derived _wrappedPromise.

- Chain.raw v: the derived promise runs _handleResolve(v); the handler
  returns v, so the derived promise fulfills with v.
- Chain.link c: the derived promise runs _handleResolve(inner) where inner is
  the freshly constructed, still pending box over the next future; this is
  the _become branch, which copies the pending state and registers
  continuations on inner via when. The inner box then settles along c on its
  own; by promise flattening (the _become branch of _handleResolve returns
  the new _wrappedPromise, a promise, which the derived promise adopts) the
  registered continuation fires with the raw value delivered by the inner
  cascade, which this box's _handleResolve then stores. -/
def settleChain : Chain α → MaybeState α ε → MaybeState α ε × Nat × α
  | Chain.raw v, m =>
      let m1 := handleResolveM m (Incoming.rawv (some v))
      (m1, flips m m1, v)
  | Chain.link c, m =>
      let inner0 : MaybeState α ε := mkMaybe (Thing.prom (JsPromise.input 0)) false none
      let m1 := handleResolveM m (Incoming.boxv inner0)
      let r := settleChain c inner0
      let m2 := handleResolveM m1 (Incoming.rawv (some r.2.2))
      (m2, flips m m1 + flips m1 m2, r.2.2)

/-
Legacy JavaScript Maybe (src/js/maybe/Maybe.js, package version 1.2.0).
Three points of divergence from the TypeScript class matter for the claims:
the constructor keeps _wrappedPromise = thing itself (the raw input promise,
not thing.then(handlers)); when has no try / catch, so a throwing handler
propagates out of the call; finally is this.when(() => onFinally(),
() => onFinally()), so the resulting box wraps the return value of onFinally
rather than the original outcome. These are modelled here so the divergence
is on record; the claims are settled against the TypeScript class above.
-/

/-- Legacy constructor, promise branch: _wrappedPromise = thing (the raw
input promise; the thing.then(handlers) result is discarded). -/
def mkMaybeLegacyProm (p : JsPromise α ε) : MaybeState α ε :=
  { isReady := false
    isError := false
    value := none
    error := none
    wrappedPromise := some p }

/-- Legacy when: no try / catch around the handler invocation, so a thrown
handler error propagates synchronously out of the call (the Except.error
case). Only the ready branches differ from the current class. -/
def whenLegacyM (m : MaybeState α ε) (onResolve : Option (Option α → HRes α ε))
    (onReject : Option (Option ε → HRes α ε)) :
    Except (Option ε) (MaybeState α ε) :=
  if m.isResolvedM then
    match onResolve with
    | some f =>
        match f m.value with
        | HRes.ret t => Except.ok (fromM t)
        | HRes.thrown e => Except.error e
    | none => Except.ok m
  else if m.isRejectedM then
    match onReject with
    | some g =>
        match g m.error with
        | HRes.ret t => Except.ok (fromM t)
        | HRes.thrown e => Except.error e
    | none => Except.ok m
  else
    Except.ok (fromM (Thing.prom (JsPromise.derived
      ((m.wrappedPromise).getD (JsPromise.input 0)))))

/-- Legacy finally: this.when(() => onFinally(), () => onFinally()); the
resulting box is built from the return value of onFinally, discarding the
original outcome (pinned by the legacy test suite, Maybe.test.js lines
606 to 665). -/
def finallyLegacyM (m : MaybeState α ε) (onFinally : Unit → Thing α ε) :
    Except (Option ε) (MaybeState α ε) :=
  whenLegacyM m
    (some fun _ => HRes.ret (onFinally ()))
    (some fun _ => HRes.ret (onFinally ()))

end MaybeSpec

namespace QueueSpec

/-
AsyncQueue (src/js/async-queue/AsyncQueue.js; identical logic in
src/js/async-queue/AsyncQueue.ts and src/unnamed/part_004 and part_013).
Tasks and their deferred pairs are identified by numbers; the backlog entry
for a task stands for the closure () => this._performTask(result, task).
-/

/-- The mutable fields of an AsyncQueue instance: maxConcurrency, queue (the
backlog of not yet started task closures, here task identifiers) and
numRunningTasks. -/
structure AsyncQueue where
  maxConcurrency : Nat
  queue : List Nat
  numRunningTasks : Nat
  deriving Repr, DecidableEq

/-- A fresh queue: new AsyncQueue({ maxConcurrency }). -/
def AsyncQueue.init (maxConcurrency : Nat) : AsyncQueue :=
  { maxConcurrency := maxConcurrency, queue := [], numRunningTasks := 0 }

/-- The behaviour of a task thunk at the moment it is invoked: it returns
(a value or a promise, both coerced by Promise.resolve) or it throws
synchronously. -/
inductive TaskBehavior (ε : Type) where
  | returns
  | throwsSync (e : ε)
  deriving Repr, DecidableEq

/-- The observable outcome of one perform(task) call.
state is the queue state after the call; result is Except.ok fid when the
call returns the future of the deferred pair built at its start (fid
identifies that pair), and Except.error e when the call itself throws;
deferredSettled records whether the deferred pair was resolved or rejected
during the call (settlement only ever happens in a later then / catch
callback, so it is false in every branch); thunkInvoked records whether the
task thunk was called inside the perform call. -/
structure PerformOutcome (ε : Type) where
  state : AsyncQueue
  result : Except ε Nat
  deferredSettled : Bool
  thunkInvoked : Bool
  deriving Repr

/-- perform(task) for the task identified by tid: build a deferred pair; if
numRunningTasks < maxConcurrency, increment numRunningTasks and call
_performTask, which invokes task() at once inside Promise.resolve(task()) —
a synchronous throw from the thunk therefore propagates out of perform after
the increment, before result.promise is returned and with nothing pushed and
the deferred pair never settled; otherwise push the starter closure onto the
backlog tail without invoking the thunk. In the non-throwing branches the
call returns result.promise. -/
def perform (q : AsyncQueue) (tid : Nat) (t : TaskBehavior ε) :
    PerformOutcome ε :=
  if q.numRunningTasks < q.maxConcurrency then
    match t with
    | TaskBehavior.returns =>
        { state := { q with numRunningTasks := q.numRunningTasks + 1 }
          result := Except.ok tid
          deferredSettled := false
          thunkInvoked := true }
    | TaskBehavior.throwsSync e =>
        { state := { q with numRunningTasks := q.numRunningTasks + 1 }
          result := Except.error e
          deferredSettled := false
          thunkInvoked := true }
  else
    { state := { q with queue := q.queue ++ [tid] }
      result := Except.ok tid
      deferredSettled := false
      thunkInvoked := false }

/-- The finally callback of _performTask, run when a started task settles
(with a value or an error alike): if the backlog is non-empty, shift its head
and invoke that starter closure, leaving numRunningTasks unchanged (the freed
slot is reused by the dequeued task); otherwise decrement numRunningTasks. -/
def settleStep (q : AsyncQueue) : AsyncQueue :=
  match q.queue with
  | _ :: rest => { q with queue := rest }
  | [] => { q with numRunningTasks := q.numRunningTasks - 1 }

/-- Events of the queue state machine: a perform call for a (non-throwing)
task, or the settlement of one currently running task. -/
inductive QEvent where
  | performE (tid : Nat)
  | settleE
  deriving Repr, DecidableEq

/-- Simulation state: the queue instance plus the number of started, not yet
settled tasks (the tasks whose _performTask promise chain has not yet run its
finally callback). A settle event requires such a task to exist. -/
structure RunnerSim where
  q : AsyncQueue
  running : Nat
  deriving Repr, DecidableEq

/-- The initial simulation state over a fresh queue. -/
def RunnerSim.init (maxConcurrency : Nat) : RunnerSim :=
  { q := AsyncQueue.init maxConcurrency, running := 0 }

/-- One step of the queue state machine. A perform event applies perform for
a normally behaving task (a task started inside perform raises the count of
started unsettled tasks). A settle event can fire only when a started
unsettled task exists; it runs the finally callback: a dequeue starts the
dequeued task (one task settled, one started, so the count is unchanged),
while with an empty backlog the count drops together with numRunningTasks. -/
def stepR (s : RunnerSim) : QEvent → Option RunnerSim
  | QEvent.performE tid =>
      let o := perform s.q tid (TaskBehavior.returns (ε := Unit))
      some { q := o.state
             running := if o.thunkInvoked then s.running + 1 else s.running }
  | QEvent.settleE =>
      if s.running = 0 then none
      else
        match s.q.queue with
        | _ :: _ => some { q := settleStep s.q, running := s.running }
        | [] => some { q := settleStep s.q, running := s.running - 1 }

/-- Runs a list of events from a state; none when some settle event was not
enabled. -/
def runEvents (s : RunnerSim) : List QEvent → Option RunnerSim
  | [] => some s
  | e :: es =>
      match stepR s e with
      | some s2 => runEvents s2 es
      | none => none

end QueueSpec

namespace MaybeSpec

variable {α ε : Type}

/-- One .then application yields a new promise object, distinct from its
source. -/
theorem JsPromise.derived_ne (p : JsPromise α ε) : JsPromise.derived p ≠ p := by
  induction p with
  | input i => exact fun h => by cases h
  | derived q ih => exact fun h => ih (by injection h)
  | resolvedTo v => exact fun h => by cases h
  | rejectedTo e => exact fun h => by cases h

/-- Closed form of the settlement cascade of a box constructed over a future
that fulfills along a chain: the box ends resolved holding the terminal raw
value, flips from pending to ready exactly once, and its derived wrapped
promise delivers the terminal raw value. -/
theorem settleChain_closed (c : Chain α) (p : JsPromise α ε) :
    settleChain c (mkMaybe (Thing.prom p) false none) =
      ({ isReady := true, isError := false, value := some c.terminal,
         error := none, wrappedPromise := none }, 1, c.terminal) := by
  induction c generalizing p with
  | raw v =>
      simp [settleChain, mkMaybe, handleResolveM, flips, Chain.terminal]
  | link c ih =>
      simp only [settleChain, Chain.terminal]
      rw [ih (JsPromise.input 0)]
      simp [mkMaybe, handleResolveM, becomeM, flips]

/-- value() on a resolved box returns the stored value. -/
theorem valueM_resolved (m : MaybeState α ε) (h : m.isResolvedM = true) :
    valueM m = ValueOutcome.ok m.value := by
  simp [valueM, h]

/-- A rejected box is not resolved. -/
theorem not_resolved_of_rejected (m : MaybeState α ε)
    (h : m.isRejectedM = true) : m.isResolvedM = false := by
  rcases m with ⟨r, e, v, w, q⟩
  cases r <;> cases e <;> simp_all [MaybeState.isRejectedM, MaybeState.isResolvedM]

/-- find? locates the first list entry satisfying the predicate: the list
splits into a prefix of entries failing the predicate, the found entry, and
a suffix. -/
theorem find?_first {γ : Type} {p : γ → Bool} :
    ∀ (l : List γ) (b : γ), l.find? p = some b →
      p b = true ∧ ∃ l1 l2, l = l1 ++ b :: l2 ∧ ∀ x ∈ l1, p x = false := by
  intro l
  induction l with
  | nil => intro b h; cases h
  | cons a l ih =>
      intro b h
      by_cases hp : p a = true
      · rw [List.find?_cons_of_pos _ hp] at h
        refine ⟨by cases h; exact hp, [], l, by cases h; simp, by simp⟩
      · rw [List.find?_cons_of_neg _ hp] at h
        obtain ⟨hb, l1, l2, hsplit, hfail⟩ := ih b h
        refine ⟨hb, a :: l1, l2, by simp [hsplit], ?_⟩
        intro x hx
        rcases List.mem_cons.mp hx with h1 | h1
        · subst h1; exact Bool.not_eq_true _ ▸ (by simpa using hp)
        · exact hfail x h1

/-- C1: for every nesting depth (every chain, the depth being the number of
links) terminating in a raw value, the box constructed over the chain ends
with isResolved() true and value() returning the terminal raw value, and the
settlement cascade flips the box from pending to ready exactly once - it
settles once with the innermost terminal value, not once per level. -/
theorem chain_unwraps_to_terminal_with_single_settlement
    (c : Chain α) (p : JsPromise α ε) :
    ((settleChain c (mkMaybe (Thing.prom p) false none)).1).isResolvedM = true
    ∧ valueM (settleChain c (mkMaybe (Thing.prom p) false none)).1
        = ValueOutcome.ok (some c.terminal)
    ∧ (settleChain c (mkMaybe (Thing.prom p) false none)).2.1 = 1
    ∧ (settleChain c (mkMaybe (Thing.prom p) false none)).2.2 = c.terminal := by
  rw [settleChain_closed c p]
  refine ⟨rfl, ?_, rfl, rfl⟩
  simp [valueM, MaybeState.isResolvedM]

/-- C2: for a future-like constructor argument, the tracked _wrappedPromise
is the derived promise obtained by attaching the continuations of the box to
thing (the result of thing.then(handlers)), a promise distinct from thing
itself; while the box is pending, promise() returns this derived promise;
and at the point the derived promise delivers (the end of the settlement
cascade) the box already reports isReady() true, so an awaiter of promise()
resumes only after isReady() has flipped. -/
theorem wrapped_promise_is_derived_not_source
    (p : JsPromise α ε) (isErr : Bool) (o : Option ε) :
    (mkMaybe (Thing.prom p) isErr o).wrappedPromise
        = some (JsPromise.derived p)
    ∧ JsPromise.derived p ≠ p
    ∧ (mkMaybe (Thing.prom p) isErr o).isPendingM = true
    ∧ promiseM (mkMaybe (Thing.prom p) isErr o) = some (JsPromise.derived p)
    ∧ ∀ c : Chain α,
        ((settleChain c (mkMaybe (Thing.prom p) false none)).1).isReadyM
          = true := by
  refine ⟨rfl, JsPromise.derived_ne p, rfl, ?_, ?_⟩
  · simp [promiseM, mkMaybe, MaybeState.isResolvedM, MaybeState.isRejectedM]
  · intro c
    rw [settleChain_closed c p]
    rfl

/-- C3: Maybe.all maps every entry through Maybe.from and then: when every
mapped box is resolved it returns, on the synchronous path, a resolved box
holding the ordered list of each box's value() result; otherwise, when a
rejected mapped box exists, it returns the first rejected box in input order
directly (the prefix before it holds no rejected box, and nothing waits on
the pending entries); otherwise it returns a pending box over the aggregate
Promise.all of every mapped box's promise() in input order. -/
theorem all_sync_first_rejected_or_pending (array : List (Thing α ε)) :
    ((∀ m ∈ array.map fromM, m.isResolvedM = true) →
        allM array
          = AllResult.resolvedArray ((array.map fromM).map MaybeState.value)
        ∧ ∀ m ∈ array.map fromM, valueM m = ValueOutcome.ok m.value)
    ∧ (∀ b, (array.map fromM).find? MaybeState.isRejectedM = some b →
        allM array = AllResult.rejectedEntry b
        ∧ b.isRejectedM = true
        ∧ ∃ l1 l2, array.map fromM = l1 ++ b :: l2
            ∧ ∀ x ∈ l1, x.isRejectedM = false)
    ∧ ((array.map fromM).find? MaybeState.isRejectedM = none →
        ¬ (∀ m ∈ array.map fromM, m.isResolvedM = true) →
        allM array
          = AllResult.pendingArray ((array.map fromM).map promiseM)) := by
  refine ⟨?_, ?_, ?_⟩
  · intro hall
    constructor
    · simp only [allM]
      rw [if_pos (List.all_eq_true.mpr hall)]
    · exact fun m hm => valueM_resolved m (hall m hm)
  · intro b hfind
    obtain ⟨hb, l1, l2, hsplit, hfail⟩ := find?_first _ b hfind
    have hnotall : ¬ ((array.map fromM).all MaybeState.isResolvedM = true) := by
      intro hall
      have hmem : b ∈ array.map fromM := by
        rw [hsplit]; exact List.mem_append_right _ (List.mem_cons_self _ _)
      have := List.all_eq_true.mp hall b hmem
      rw [not_resolved_of_rejected b hb] at this
      cases this
    refine ⟨?_, hb, l1, l2, hsplit, hfail⟩
    simp only [allM]
    rw [if_neg hnotall, hfind]
  · intro hnone hnotall
    simp only [allM]
    rw [if_neg (fun hall => hnotall (List.all_eq_true.mp hall)), hnone]

/-- C4: when never lets a throwing handler escape: on a resolved box whose
onResolve throws, and on a rejected box whose onReject throws, the call
returns Maybe.fromError of the thrown value - a rejected box storing the
thrown error - instead of propagating the exception to the caller. -/
theorem when_catches_handler_throw (m : MaybeState α ε)
    (f : Option α → HRes α ε) (g : Option ε → HRes α ε) (e : Option ε) :
    (m.isResolvedM = true → f m.value = HRes.thrown e →
        whenM m (some f) (some g) = fromErrorM e
        ∧ (fromErrorM e : MaybeState α ε).isRejectedM = true
        ∧ (fromErrorM e : MaybeState α ε).error = e)
    ∧ (m.isRejectedM = true → g m.error = HRes.thrown e →
        whenM m (some f) (some g) = fromErrorM e
        ∧ (fromErrorM e : MaybeState α ε).isRejectedM = true
        ∧ (fromErrorM e : MaybeState α ε).error = e) := by
  constructor
  · intro hres hf
    refine ⟨?_, rfl, rfl⟩
    simp [whenM, hres, hf, tryFrom]
  · intro hrej hg
    have hnres : m.isResolvedM = false := not_resolved_of_rejected m hrej
    refine ⟨?_, rfl, rfl⟩
    simp [whenM, hnres, hrej, hg, tryFrom]

/-- C5, counterexample: finally does not preserve the original outcome for
every onFinally. On a box resolved to 4, an onFinally returning a rejected
box yields that rejected box as the result of finally: the returned box is
rejected with the error 8 of onFinally, not resolved with the original
value 4. -/
theorem finally_not_always_preserving :
    finallyM (fromM (Thing.val (some 4)) : MaybeState Nat Nat)
        (fun _ => HRes.ret (Thing.box (fromErrorM (some 8))))
      = fromErrorM (some 8)
    ∧ (fromErrorM (some 8) : MaybeState Nat Nat).isRejectedM = true
    ∧ (fromErrorM (some 8) : MaybeState Nat Nat).value ≠ some 4 := by
  refine ⟨rfl, rfl, ?_⟩
  intro h
  cases h

/-- C5, amended: finally invokes the zero-argument onFinally on both ready
paths; whenever the own result of onFinally resolves (in particular whenever
onFinally returns a plain value), the box finally returns settles with the
original outcome - the original value for a resolved box, the original
error for a rejected box - and never with the return value of onFinally;
but when onFinally throws, or when its result is a rejected box, that
rejection replaces the original outcome (mirroring standard future finally
semantics). -/
theorem finally_preserves_outcome_unless_onFinally_rejects
    (m : MaybeState α ε) (t : Thing α ε) (e : Option ε) :
    (m.isResolvedM = true → (fromM t).isResolvedM = true →
        finallyM m (fun _ => HRes.ret t)
          = { isReady := true, isError := false, value := m.value,
              error := none, wrappedPromise := none })
    ∧ (m.isRejectedM = true → (fromM t).isResolvedM = true →
        finallyM m (fun _ => HRes.ret t) = fromErrorM m.error
        ∧ (fromErrorM m.error : MaybeState α ε).isRejectedM = true
        ∧ (fromErrorM m.error : MaybeState α ε).error = m.error)
    ∧ (m.isReadyM = true →
        finallyM m (fun _ => HRes.thrown e) = fromErrorM e)
    ∧ (m.isResolvedM = true → (fromM t).isRejectedM = true →
        finallyM m (fun _ => HRes.ret t) = fromM t) := by
  refine ⟨?_, ?_, ?_, ?_⟩
  · intro hres ht
    rcases m with ⟨rd, er, v, w, q⟩
    cases rd <;> cases er <;> cases t <;>
      simp_all [finallyM, whenM, tryFrom, fromM, mkMaybe, fromErrorM,
        MaybeState.isResolvedM, MaybeState.isRejectedM]
  · intro hrej ht
    refine ⟨?_, rfl, rfl⟩
    rcases m with ⟨rd, er, v, w, q⟩
    cases rd <;> cases er <;> cases t <;>
      simp_all [finallyM, whenM, tryFrom, fromM, mkMaybe, fromErrorM,
        MaybeState.isResolvedM, MaybeState.isRejectedM]
  · intro hready
    rcases m with ⟨rd, er, v, w, q⟩
    cases rd <;> cases er <;>
      simp_all [finallyM, whenM, tryFrom, fromM, mkMaybe, fromErrorM,
        MaybeState.isResolvedM, MaybeState.isRejectedM, MaybeState.isReadyM]
  · intro hres ht
    rcases m with ⟨rd, er, v, w, q⟩
    cases rd <;> cases er <;> cases t <;>
      simp_all [finallyM, whenM, tryFrom, fromM, mkMaybe, fromErrorM,
        MaybeState.isResolvedM, MaybeState.isRejectedM]

/-- C6, counterexample: constructing with isError = true and no error
override does not store the constructor argument as the error. With thing =
42, the box is rejected but its stored error is undefined, and
valueOrError() returns undefined, not 42. -/
theorem ctor_error_does_not_fall_back_to_thing :
    (mkMaybe (Thing.val (some 42)) true none : MaybeState Nat Nat).isRejectedM
        = true
    ∧ (mkMaybe (Thing.val (some 42)) true none : MaybeState Nat Nat).error
        ≠ some 42
    ∧ valueOrErrorM (mkMaybe (Thing.val (some 42)) true none :
        MaybeState Nat Nat) = VoeOutcome.err none := by
  refine ⟨rfl, ?_, rfl⟩
  intro h
  cases h

/-- C6, amended: constructing from a raw value with isError = true and no
error override produces an immediately rejected box whose stored error is
undefined (the _error slot takes only the override and does not fall back to
the constructor argument), while fromError(e) passes e as the override, so
fromError(e) is rejected and its valueOrError() returns e. -/
theorem ctor_error_is_override_only (v : Option α) (e : Option ε) :
    (mkMaybe (Thing.val v) true none : MaybeState α ε).isRejectedM = true
    ∧ (mkMaybe (Thing.val v) true none : MaybeState α ε).error = none
    ∧ (fromErrorM e : MaybeState α ε).isRejectedM = true
    ∧ valueOrErrorM (fromErrorM e : MaybeState α ε) = VoeOutcome.err e := by
  refine ⟨rfl, rfl, rfl, ?_⟩
  simp [valueOrErrorM, fromErrorM, mkMaybe, MaybeState.isResolvedM,
    MaybeState.isRejectedM]

/-- C7: value() returns the stored value on a resolved box, throws the
stored error on a rejected box and throws a PendingValueError on a pending
box; valueOrError() returns the value or the error whenever the box is ready
- never a PendingValueError for a ready box, and never a thrown error for a
rejected one - and throws a PendingValueError exactly when pending. -/
theorem value_and_valueOrError_access (m : MaybeState α ε) :
    (m.isResolvedM = true → valueM m = ValueOutcome.ok m.value)
    ∧ (m.isRejectedM = true → valueM m = ValueOutcome.threwError m.error)
    ∧ (m.isPendingM = true → valueM m = ValueOutcome.threwPending)
    ∧ (m.isReadyM = true →
        valueOrErrorM m ≠ VoeOutcome.threwPending
        ∧ (m.isResolvedM = true → valueOrErrorM m = VoeOutcome.val m.value)
        ∧ (m.isRejectedM = true → valueOrErrorM m = VoeOutcome.err m.error))
    ∧ (m.isPendingM = true → valueOrErrorM m = VoeOutcome.threwPending) := by
  rcases m with ⟨r, er, v, w, q⟩
  cases r <;> cases er <;>
    simp [valueM, valueOrErrorM, MaybeState.isResolvedM,
      MaybeState.isRejectedM, MaybeState.isPendingM, MaybeState.isReadyM]

/-- Witness for C3: the three paths of Maybe.all at concrete inputs - two
resolved values, a list with a first and a second rejected box, and a list
with a pending entry. -/
theorem all_sync_first_rejected_or_pending_witness :
    allM ([Thing.val (some 1), Thing.val (some 2)] : List (Thing Nat Nat))
        = AllResult.resolvedArray [some 1, some 2]
    ∧ allM ([Thing.val (some 1), Thing.box (fromErrorM (some 5)),
          Thing.box (fromErrorM (some 6))] : List (Thing Nat Nat))
        = AllResult.rejectedEntry (fromErrorM (some 5))
    ∧ allM ([Thing.val (some 1), Thing.prom (JsPromise.input 3)] :
          List (Thing Nat Nat))
        = AllResult.pendingArray
            [some (JsPromise.resolvedTo (some 1)),
             some (JsPromise.derived (JsPromise.input 3))] :=
  ⟨((all_sync_first_rejected_or_pending _).1 (by decide)).1,
   ((all_sync_first_rejected_or_pending _).2.1 _ (by decide)).1,
   (all_sync_first_rejected_or_pending _).2.2 (by decide) (by decide)⟩

/-- Witness for C4: a resolved box with a throwing onResolve and a rejected
box with a throwing onReject, each yielding the rejected box for the thrown
value as the return value of when. -/
theorem when_catches_handler_throw_witness :
    whenM (fromM (Thing.val (some 1)) : MaybeState Nat Nat)
        (some fun _ => HRes.thrown (some 7))
        (some fun _ => HRes.ret (Thing.val none))
      = fromErrorM (some 7)
    ∧ whenM (fromErrorM (some 3) : MaybeState Nat Nat)
        (some fun _ => HRes.ret (Thing.val none))
        (some fun _ => HRes.thrown (some 9))
      = fromErrorM (some 9) :=
  ⟨((when_catches_handler_throw (fromM (Thing.val (some 1)))
      (fun _ => HRes.thrown (some 7)) (fun _ => HRes.ret (Thing.val none))
      (some 7)).1 rfl rfl).1,
   ((when_catches_handler_throw (fromErrorM (some 3))
      (fun _ => HRes.ret (Thing.val none)) (fun _ => HRes.thrown (some 9))
      (some 9)).2 rfl rfl).1⟩

/-- Witness for C5 (amended): finally over a resolved box and over a
rejected box, with onFinally returning 99, preserves the original outcome;
a throwing onFinally over the resolved box replaces it with the thrown 8;
an onFinally returning a rejected box replaces it with that rejection. -/
theorem finally_outcome_witness :
    finallyM (fromM (Thing.val (some 4)) : MaybeState Nat Nat)
        (fun _ => HRes.ret (Thing.val (some 99)))
      = { isReady := true, isError := false, value := some 4,
          error := none, wrappedPromise := none }
    ∧ finallyM (fromErrorM (some 3) : MaybeState Nat Nat)
        (fun _ => HRes.ret (Thing.val (some 99)))
      = fromErrorM (some 3)
    ∧ finallyM (fromM (Thing.val (some 4)) : MaybeState Nat Nat)
        (fun _ => HRes.thrown (some 8))
      = fromErrorM (some 8)
    ∧ finallyM (fromM (Thing.val (some 4)) : MaybeState Nat Nat)
        (fun _ => HRes.ret (Thing.box (fromErrorM (some 8))))
      = fromErrorM (some 8) :=
  ⟨(finally_preserves_outcome_unless_onFinally_rejects
      (fromM (Thing.val (some 4))) (Thing.val (some 99)) none).1 rfl rfl,
   ((finally_preserves_outcome_unless_onFinally_rejects
      (fromErrorM (some 3)) (Thing.val (some 99)) none).2.1 rfl rfl).1,
   (finally_preserves_outcome_unless_onFinally_rejects
      (fromM (Thing.val (some 4))) (Thing.val none) (some 8)).2.2.1 rfl,
   (finally_preserves_outcome_unless_onFinally_rejects
      (fromM (Thing.val (some 4))) (Thing.box (fromErrorM (some 8)))
      none).2.2.2 rfl rfl⟩

/-- Witness for C7: the synchronous accessors on a concrete resolved box, a
concrete rejected box and a concrete pending box. -/
theorem value_and_valueOrError_access_witness :
    valueM (fromM (Thing.val (some 5)) : MaybeState Nat Nat)
        = ValueOutcome.ok (some 5)
    ∧ valueM (fromErrorM (some 6) : MaybeState Nat Nat)
        = ValueOutcome.threwError (some 6)
    ∧ valueOrErrorM (fromErrorM (some 6) : MaybeState Nat Nat)
        = VoeOutcome.err (some 6)
    ∧ valueM (fromM (Thing.prom (JsPromise.input 0)) : MaybeState Nat Nat)
        = ValueOutcome.threwPending
    ∧ valueOrErrorM (fromM (Thing.prom (JsPromise.input 0)) :
          MaybeState Nat Nat)
        = VoeOutcome.threwPending :=
  ⟨(value_and_valueOrError_access (fromM (Thing.val (some 5)))).1 rfl,
   (value_and_valueOrError_access
      (fromErrorM (some 6) : MaybeState Nat Nat)).2.1 rfl,
   ((value_and_valueOrError_access
      (fromErrorM (some 6) : MaybeState Nat Nat)).2.2.2.1 rfl).2.2 rfl,
   (value_and_valueOrError_access
      (fromM (Thing.prom (JsPromise.input 0)))).2.2.1 rfl,
   (value_and_valueOrError_access
      (fromM (Thing.prom (JsPromise.input 0)))).2.2.2.2 rfl⟩

end MaybeSpec

namespace QueueSpec

/-- One step preserves the simulation invariant: the count of started,
unsettled tasks equals numRunningTasks, numRunningTasks stays below the
bound, and maxConcurrency never changes. -/
theorem stepR_inv {s s2 : RunnerSim} {e : QEvent}
    (h1 : s.running = s.q.numRunningTasks)
    (h2 : s.q.numRunningTasks ≤ s.q.maxConcurrency)
    (h : stepR s e = some s2) :
    s2.running = s2.q.numRunningTasks
    ∧ s2.q.numRunningTasks ≤ s2.q.maxConcurrency
    ∧ s2.q.maxConcurrency = s.q.maxConcurrency := by
  cases e with
  | performE tid =>
      by_cases hlt : s.q.numRunningTasks < s.q.maxConcurrency
      · simp only [stepR, perform, if_pos hlt] at h
        cases h
        exact ⟨by simp [h1], by simpa using hlt, rfl⟩
      · simp only [stepR, perform, if_neg hlt] at h
        cases h
        exact ⟨by simp [h1], by simpa using h2, rfl⟩
  | settleE =>
      by_cases h0 : s.running = 0
      · simp [stepR, h0] at h
      · cases hq : s.q.queue with
        | nil =>
            simp only [stepR, if_neg h0, hq, settleStep] at h
            cases h
            exact ⟨by simp [h1], by simpa using Nat.le_trans (Nat.sub_le _ _) h2, rfl⟩
        | cons t rest =>
            simp only [stepR, if_neg h0, hq, settleStep] at h
            cases h
            exact ⟨by simp [h1], by simpa using h2, rfl⟩

/-- Running any enabled event sequence preserves the simulation invariant. -/
theorem runEvents_inv :
    ∀ (es : List QEvent) (s s2 : RunnerSim),
      s.running = s.q.numRunningTasks →
      s.q.numRunningTasks ≤ s.q.maxConcurrency →
      runEvents s es = some s2 →
      s2.running = s2.q.numRunningTasks
      ∧ s2.q.numRunningTasks ≤ s2.q.maxConcurrency
      ∧ s2.q.maxConcurrency = s.q.maxConcurrency := by
  intro es
  induction es with
  | nil =>
      intro s s2 h1 h2 h
      simp only [runEvents, Option.some.injEq] at h
      subst h
      exact ⟨h1, h2, rfl⟩
  | cons e es ih =>
      intro s s2 h1 h2 h
      simp only [runEvents] at h
      cases hs : stepR s e with
      | none => rw [hs] at h; cases h
      | some s1 =>
          rw [hs] at h
          obtain ⟨g1, g2, g3⟩ := stepR_inv h1 h2 hs
          obtain ⟨k1, k2, k3⟩ := ih s1 s2 g1 g2 h
          exact ⟨k1, k2, by rw [k3, g3]⟩

/-- C8: when perform is called with room (numRunningTasks below
maxConcurrency) it increments numRunningTasks and invokes the task thunk
synchronously inside the call; otherwise it leaves the thunk uninvoked and
appends a starter closure to the backlog tail; in both cases the call
returns the future of the deferred pair built at its start. -/
theorem perform_starts_or_queues {ε' : Type} (q : AsyncQueue) (tid : Nat) :
    (q.numRunningTasks < q.maxConcurrency →
        perform q tid (TaskBehavior.returns : TaskBehavior ε')
          = { state := { q with numRunningTasks := q.numRunningTasks + 1 }
              result := Except.ok tid
              deferredSettled := false
              thunkInvoked := true })
    ∧ (¬ q.numRunningTasks < q.maxConcurrency →
        ∀ t : TaskBehavior ε',
          perform q tid t
            = { state := { q with queue := q.queue ++ [tid] }
                result := Except.ok tid
                deferredSettled := false
                thunkInvoked := false }) := by
  constructor
  · intro h
    simp [perform, h]
  · intro h t
    cases t <;> simp [perform, h]

/-- Witness for C8: a fresh queue with capacity two starts the task at once;
a full queue with capacity one appends the starter to the backlog tail. -/
theorem perform_starts_or_queues_witness :
    perform (AsyncQueue.mk 2 [] 0) 5 (TaskBehavior.returns : TaskBehavior Unit)
      = { state := AsyncQueue.mk 2 [] 1
          result := Except.ok 5
          deferredSettled := false
          thunkInvoked := true }
    ∧ perform (AsyncQueue.mk 1 [] 1) 7
        (TaskBehavior.returns : TaskBehavior Unit)
      = { state := AsyncQueue.mk 1 [7] 1
          result := Except.ok 7
          deferredSettled := false
          thunkInvoked := false } :=
  ⟨(perform_starts_or_queues (AsyncQueue.mk 2 [] 0) 5).1 (by decide),
   (perform_starts_or_queues (AsyncQueue.mk 1 [] 1) 7).2 (by decide)
     TaskBehavior.returns⟩

/-- C9: in every state reachable by perform calls and task settlements from
a fresh Runner with maxConcurrency at least one, numRunningTasks stays
between zero and maxConcurrency; and a settlement (possible only while a
started, unsettled task exists) dequeues the backlog head and invokes it
with numRunningTasks unchanged when the backlog is non-empty, and decrements
numRunningTasks exactly when the backlog is empty. -/
theorem runner_invariant_and_settle_discipline (M : Nat) (hM : 1 ≤ M) :
    (∀ (es : List QEvent) (s2 : RunnerSim),
        runEvents (RunnerSim.init M) es = some s2 →
        0 ≤ s2.q.numRunningTasks ∧ s2.q.numRunningTasks ≤ M)
    ∧ (∀ s : RunnerSim, s.running ≠ 0 →
        (∀ t rest, s.q.queue = t :: rest →
            stepR s QEvent.settleE
              = some { q := { s.q with queue := rest }
                       running := s.running })
        ∧ (s.q.queue = [] →
            stepR s QEvent.settleE
              = some { q := { s.q with
                          numRunningTasks := s.q.numRunningTasks - 1 }
                       running := s.running - 1 })) := by
  constructor
  · intro es s2 h
    obtain ⟨_, k2, k3⟩ := runEvents_inv es (RunnerSim.init M) s2 rfl
      (Nat.zero_le M) h
    have hmax : s2.q.maxConcurrency = M := k3
    exact ⟨Nat.zero_le _, hmax ▸ k2⟩
  · intro s h0
    constructor
    · intro t rest hq
      simp [stepR, h0, hq, settleStep]
    · intro hq
      simp [stepR, h0, hq, settleStep]

/-- Witness for C9: with capacity two, three perform calls followed by one
settlement leave two tasks running and an emptied backlog; the two settle
clauses are exercised on a state with one backlog entry and on a state with
an empty backlog. -/
theorem runner_invariant_and_settle_discipline_witness :
    (0 ≤ (2 : Nat) ∧ (2 : Nat) ≤ 2)
    ∧ stepR (RunnerSim.mk (AsyncQueue.mk 2 [5] 2) 2) QEvent.settleE
        = some (RunnerSim.mk (AsyncQueue.mk 2 [] 2) 2)
    ∧ stepR (RunnerSim.mk (AsyncQueue.mk 2 [] 2) 2) QEvent.settleE
        = some (RunnerSim.mk (AsyncQueue.mk 2 [] 1) 1) := by
  refine ⟨?_, ?_, ?_⟩
  · have h := (runner_invariant_and_settle_discipline 2 (by decide)).1
      [QEvent.performE 0, QEvent.performE 1, QEvent.performE 2,
       QEvent.settleE]
      (RunnerSim.mk (AsyncQueue.mk 2 [] 2) 2) (by decide)
    exact h
  · exact ((runner_invariant_and_settle_discipline 2 (by decide)).2
      (RunnerSim.mk (AsyncQueue.mk 2 [5] 2) 2) (by decide)).1 5 [] rfl
  · exact ((runner_invariant_and_settle_discipline 2 (by decide)).2
      (RunnerSim.mk (AsyncQueue.mk 2 [] 2) 2) (by decide)).2 rfl

/-- C10: when the task thunk throws synchronously and there was room, the
exception propagates out of perform itself (no future is returned), the
deferred pair is never settled, numRunningTasks stays incremented with no
compensating decrement and no backlog change for that slot. -/
theorem perform_throwing_thunk_leaks_slot {ε' : Type} (q : AsyncQueue)
    (tid : Nat) (e : ε') (h : q.numRunningTasks < q.maxConcurrency) :
    perform q tid (TaskBehavior.throwsSync e)
      = { state := { q with numRunningTasks := q.numRunningTasks + 1 }
          result := Except.error e
          deferredSettled := false
          thunkInvoked := true }
    ∧ (perform q tid (TaskBehavior.throwsSync e)).result = Except.error e
    ∧ (perform q tid (TaskBehavior.throwsSync e)).state.numRunningTasks
        = q.numRunningTasks + 1
    ∧ (perform q tid (TaskBehavior.throwsSync e)).state.queue = q.queue
    ∧ (perform q tid (TaskBehavior.throwsSync e)).deferredSettled = false := by
  simp [perform, h]

/-- Witness for C10: a throwing thunk on a fresh queue with capacity one. -/
theorem perform_throwing_thunk_leaks_slot_witness :
    perform (AsyncQueue.mk 1 [] 0) 0 (TaskBehavior.throwsSync (37 : Nat))
      = { state := AsyncQueue.mk 1 [] 1
          result := Except.error 37
          deferredSettled := false
          thunkInvoked := true } :=
  (perform_throwing_thunk_leaks_slot (AsyncQueue.mk 1 [] 0) 0 37
    (by decide)).1

end QueueSpec
